import Mathlib

/-!
Verification of the docflows workflow engine (src/docflows plus src/example.py)
against its natural-language specification.

The guard machinery (`Check`, `CheckList`, `check_all`, `check_any`), the
history decorator (`keep_history`) and the concrete Report checks are
translated from src/docflows/check.py, src/docflows/transitions.py and
src/example.py.  The transition-execution protocol and the workflow factory
validation live in the external `xworkflows` dependency, which is not part of
src/; those parts are modelled from the spec and marked as such in their doc
comments.  Python expressions evaluated by `eval` are modelled denotationally
as boolean-valued functions of the document data they may read; Python
exceptions are modelled as explicit error values, and in-place mutation of the
entity (notably `instance.history.append`) is modelled by threading the
mutated entity through every call, including failing ones, since a raised
Python exception does not roll back a list mutation that already happened.
-/

namespace Docflows

/-- Allow-list of builtin names installed by `Check.verify` as the
`__builtins__` of the evaluation globals (src/docflows/check.py,
`SAFE_BUILTINS`, lines 8-61). -/
def SAFE_BUILTINS : List String :=
  ["abs", "all", "any", "ascii", "bin", "bool", "bytearray", "bytes",
   "callable", "chr", "classmethod", "complex", "dict", "dir", "divmod",
   "enumerate", "filter", "float", "format", "frozenset", "getattr",
   "hasattr", "hash", "hex", "id", "int", "isinstance", "issubclass",
   "iter", "len", "list", "map", "max", "min", "next", "object", "oct",
   "ord", "pow", "range", "repr", "reversed", "round", "set", "slice",
   "sorted", "str", "sum", "super", "tuple", "type", "zip"]

/-- The document data a guard expression can read: the `Report` attributes
exposed to the expression through the `doc` binding (src/example.py,
`Report.__init__`). -/
structure DocData where
  title : String
  content : Option String
  keywords : List String

/-- A guard (src/docflows/check.py, class `Check`): a name, a boolean
expression and an error message.  The Python `expr` string, compiled by
`compile` and run by `eval` with `{'doc': instance}` as globals, is modelled
denotationally as a boolean function of the document data; the `_expr_obj`
compilation cache is pure memoization and is not modelled. -/
structure Check where
  name : String
  expr : DocData → Bool
  error_msg : Option String := none

/-- `Check.verify` (src/docflows/check.py lines 81-90): evaluates the compiled
expression with the caller's globals, after installing `SAFE_BUILTINS` as
`__builtins__`.  Modelled as applying the denoted expression to the document
data bound to `doc`. -/
def Check.verify (c : Check) (d : DocData) : Bool :=
  c.expr d

/-- `CheckList.__init__` builds `{c.name: c for c in checks}`; a duplicate
name is overwritten by the later entry (last-write-wins dict semantics), so a
lookup finds the last check with the given name. -/
def CheckList.lookup (cl : List Check) (n : String) : Option Check :=
  cl.reverse.find? (fun c => c.name == n)

/-- Outcome of `getattr(instance.checks, item)` on a `CheckList`. -/
inductive GetattrResult where
  /-- `__getattr__` returned `self.checks[item]`. -/
  | check (c : Check)
  /-- `item` named a real instance attribute (the `checks` dict itself), which
  normal attribute lookup finds before `__getattr__` is ever called; the raw
  mapping is returned instead of a `Check`. -/
  | checksAttr
  /-- `self.checks[item]` raised `KeyError(item)`. -/
  | keyError (n : String)

/-- Attribute access on a `CheckList` (src/docflows/check.py lines 93-98).
Python calls `__getattr__` only when normal attribute lookup fails, and the
instance has a real attribute `checks` (the dict set in `__init__`), so
looking up the name "checks" returns the dict itself rather than entering
`__getattr__`.  (Attributes inherited from `object`, such as dunder names,
shadow `__getattr__` the same way and are not modelled.)  For any other name
`__getattr__` runs `self.checks[item]`, which returns the check or raises
`KeyError(item)`. -/
def CheckList.getattr (cl : List Check) (n : String) : GetattrResult :=
  if n = "checks" then GetattrResult.checksAttr
  else
    match CheckList.lookup cl n with
    | some c => GetattrResult.check c
    | none => GetattrResult.keyError n

/-- Errors raised by the guard machinery, the history decorator, the effect
body and the surrounding engine.  Python raises plain exception objects; each
constructor records the data the corresponding `raise` puts into the
exception. -/
inductive Err where
  /-- `raise Exception(cond.error_msg)` in `check_all`. -/
  | guardFailed (msg : Option String)
  /-- `raise Exception(f'All checks failed for {f.__name__}')` in `check_any`. -/
  | allChecksFailed (msg : String)
  /-- `KeyError` escaping `CheckList.__getattr__`. -/
  | keyError (name : String)
  /-- `AttributeError`: the looked-up object has no such attribute (e.g.
  calling `.verify` on the raw `checks` dict). -/
  | attributeError (name : String)
  /-- `xworkflows.base.InvalidTransitionError`, naming the transition and the
  current state. -/
  | invalidTransition (transition : String) (state : String)
  /-- An exception raised by a transition's effect body. -/
  | effectError (msg : String)
deriving DecidableEq

/-- Observable events of one transition call, used to state ordering and
evaluation-count properties. -/
inductive Ev where
  /-- A guard expression was evaluated, with its result. -/
  | guardEval (name : String) (result : Bool)
  /-- `instance.history.append(entry)` ran. -/
  | historyAppend (entry : String)
  /-- The innermost transition body (the effect) ran. -/
  | effectRun
  /-- The before-transition hooks ran. -/
  | beforeHook
  /-- `current_state` was set to the target. -/
  | stateMutation (target : String)
  /-- The after-transition hooks ran. -/
  | afterHook
  /-- The on-enter-state hooks ran. -/
  | onEnterHook
deriving DecidableEq

/-- The workflow-enabled entity (src/example.py, class `Report`): domain
attributes, the guard set, the history list and the current state name. -/
structure Entity where
  title : String
  content : Option String
  keywords : List String
  checks : List Check
  history : List String
  state : String

/-- The view of an entity that a guard expression reads through `doc`. -/
def Entity.doc (e : Entity) : DocData :=
  ⟨e.title, e.content, e.keywords⟩

/-- Result of one (possibly decorated) transition-implementation call: the
entity after the call — kept even when the call fails, because Python
exceptions do not undo mutations already performed — the emitted events in
order, and the raised exception, if any. -/
structure Res where
  inst : Entity
  trace : List Ev
  err : Option Err

/-- A transition implementation: a function of the instance, the positional
arguments and the `user` keyword argument.  Positional arguments are the actor
strings the example passes; other keyword arguments are never read by the
code under verification and are not modelled. -/
def Action : Type :=
  Entity → List String → Option String → Res

/-- The guard loop of `check_all` (src/docflows/check.py lines 106-111):
walks the names in order; for each, `getattr(instance.checks, check)` then
`cond.verify({'doc': instance})`; stops at the first lookup error or false
guard.  Since `verify` is modelled pure, the loop is split into this scan —
returning the guard-evaluation events and the first error, if any — followed
by the call of the wrapped function. -/
def scanAll (cl : List Check) (names : List String) (d : DocData) :
    List Ev × Option Err :=
  match names with
  | [] => ([], none)
  | n :: rest =>
    match CheckList.getattr cl n with
    | GetattrResult.checksAttr => ([], some (Err.attributeError "verify"))
    | GetattrResult.keyError m => ([], some (Err.keyError m))
    | GetattrResult.check c =>
      if c.verify d then
        let p := scanAll cl rest d
        (Ev.guardEval n true :: p.1, p.2)
      else ([Ev.guardEval n false], some (Err.guardFailed c.error_msg))

/-- `check_all` (src/docflows/check.py lines 101-116): raises at the first
failing check, with that check's `error_msg`; only if every check passes does
the wrapped function run. -/
def check_all (names : List String) (f : Action) : Action :=
  fun inst args user =>
    match scanAll inst.checks names inst.doc with
    | (tr, some e) => ⟨inst, tr, some e⟩
    | (tr, none) =>
      let r := f inst args user
      ⟨r.inst, tr ++ r.trace, r.err⟩

/-- The guard loop of `check_any` (src/docflows/check.py lines 125-129):
evaluates every named check, collecting `(name, error_msg)` for each failing
one; a lookup error aborts the loop.  Returns the guard-evaluation events, the
collected failures and the lookup error, if any. -/
def evalAny (cl : List Check) (names : List String) (d : DocData) :
    List Ev × List (String × Option String) × Option Err :=
  match names with
  | [] => ([], [], none)
  | n :: rest =>
    match CheckList.getattr cl n with
    | GetattrResult.checksAttr => ([], [], some (Err.attributeError "verify"))
    | GetattrResult.keyError m => ([], [], some (Err.keyError m))
    | GetattrResult.check c =>
      let b := c.verify d
      let p := evalAny cl rest d
      (Ev.guardEval n b :: p.1, (if b then p.2.1 else (n, c.error_msg) :: p.2.1), p.2.2)

/-- `check_any` (src/docflows/check.py lines 119-138): evaluates every check;
if the number of failures equals the number of checks it raises
`Exception(f'All checks failed for {f.__name__}')` — `fname` is the wrapped
function's `__name__`, preserved by `functools.wraps` — otherwise the wrapped
function runs. -/
def check_any (names : List String) (fname : String) (f : Action) : Action :=
  fun inst args user =>
    match evalAny inst.checks names inst.doc with
    | (tr, _, some e) => ⟨inst, tr, some e⟩
    | (tr, fs, none) =>
      if fs.length = names.length then
        ⟨inst, tr, some (Err.allChecksFailed ("All checks failed for " ++ fname))⟩
      else
        let r := f inst args user
        ⟨r.inst, tr ++ r.trace, r.err⟩

/-- Actor selection of `keep_history` (src/docflows/transitions.py lines
18-23): the first positional argument when one is present and no `user`
keyword is given; the `user` keyword when given; otherwise `"UNKNOWN"`, which
is also written into the keyword arguments passed on.  Returns the actor and
the `user` keyword argument forwarded to the wrapped function. -/
def actorOf (args : List String) (user : Option String) : String × Option String :=
  match args, user with
  | a :: _, none => (a, none)
  | _, some u => (u, some u)
  | [], none => ("UNKNOWN", some "UNKNOWN")

/-- `keep_history` (src/docflows/transitions.py lines 11-27): selects the
actor, appends `f'{user}: {f.__name__}'` to `instance.history`, and only then
calls the wrapped function.  The append is an in-place list mutation, so it
survives an exception raised by the wrapped function. -/
def keep_history (fname : String) (f : Action) : Action :=
  fun inst args user =>
    let au := actorOf args user
    let entry := au.1 ++ ": " ++ fname
    let inst' := { inst with history := inst.history ++ [entry] }
    let r := f inst' args au.2
    ⟨r.inst, Ev.historyAppend entry :: r.trace, r.err⟩

/-- The `pass` body of every `Report` transition (src/example.py). -/
def passEffect : Action :=
  fun inst _ _ => ⟨inst, [Ev.effectRun], none⟩

/-- An effect body that raises, as the decorators' generic signature permits
for an arbitrary wrapped function. -/
def failEffect (msg : String) : Action :=
  fun inst _ _ => ⟨inst, [Ev.effectRun], some (Err.effectError msg)⟩

/-- A declared workflow state: `(name, title)` (src/docflows/docflows.py
doctest; src/demo.py, `ReportWorkflow.states`). -/
structure StateDecl where
  name : String
  title : String
deriving DecidableEq

/-- A declared transition: `(name, sources, target)` (src/docflows/docflows.py
doctest; src/demo.py, `ReportWorkflow.transitions`).  A single source state in
the declaration is the one-element list here. -/
structure TransDecl where
  name : String
  sources : List String
  target : String
deriving DecidableEq

/-- A workflow definition: the declared states, transitions and initial
state. -/
structure WorkflowDef where
  states : List StateDecl
  transitions : List TransDecl
  initial_state : String
deriving DecidableEq

/-- The repo's hooks (`notify_transition_start`, `notify_transition_end`,
`announce_state` in src/example.py) only log; a hook is modelled as an
observation of the entity that may raise but never mutates. -/
def noHooks : Entity → Option Err :=
  fun _ => none

/-- Modelled from the spec: the transition-execution protocol of the external
`xworkflows` engine, which is a dependency and not part of src/ — spec §4.5:
(1) the legality check, failing with
`InvalidTransitionError{transition_name, current_state}` when `current_state`
is not among the transition's permitted sources, with no hook firing; (2) the
before-transition hooks, whose failure aborts before any mutation; (3)-(4) the
decorated implementation `impl`, built from the src decorators (guards,
history, effect); (5) `current_state` set to the target only on success;
(7)-(8) the after-transition and on-enter-state hooks, modelled as trace
events since the repo's hooks only log. -/
def runTransition (t : TransDecl) (impl : Action) (beforeHook : Entity → Option Err)
    (inst : Entity) (args : List String) (user : Option String) : Res :=
  if inst.state ∈ t.sources then
    match beforeHook inst with
    | some e => ⟨inst, [Ev.beforeHook], some e⟩
    | none =>
      let r := impl inst args user
      match r.err with
      | some e => ⟨r.inst, Ev.beforeHook :: r.trace, some e⟩
      | none =>
        ⟨{ r.inst with state := t.target },
         Ev.beforeHook :: r.trace ++ [Ev.stateMutation t.target, Ev.afterHook, Ev.onEnterHook],
         none⟩
  else ⟨inst, [], some (Err.invalidTransition t.name inst.state)⟩

/-- States reachable from a workflow definition's initial state by following
declared transitions. -/
inductive Reachable (wf : WorkflowDef) : String → Prop where
  | init : Reachable wf wf.initial_state
  | step {s : String} {t : TransDecl} : Reachable wf s → t ∈ wf.transitions →
      s ∈ t.sources → Reachable wf t.target

/-- The report workflow: states, transitions and initial state as declared in
src/demo.py's `ReportWorkflow` and the src/docflows/docflows.py doctest (the
same data src/example.py loads from its JSON file). -/
def reportWorkflow : WorkflowDef :=
  { states := [⟨"draft", "Draft"⟩, ⟨"ready", "Ready"⟩, ⟨"complete", "Complete"⟩,
               ⟨"submitted", "Submitted"⟩, ⟨"done", "Done"⟩, ⟨"approved", "Approved"⟩,
               ⟨"cancelled", "Cancelled"⟩],
    transitions := [⟨"prepare", ["draft"], "ready"⟩, ⟨"finish", ["ready"], "complete"⟩,
                    ⟨"submit", ["complete"], "submitted"⟩, ⟨"approve", ["submitted"], "approved"⟩,
                    ⟨"reject", ["submitted"], "ready"⟩, ⟨"cancel", ["ready", "complete"], "cancelled"⟩],
    initial_state := "draft" }

/-- The `prepare` transition declaration of the report workflow. -/
def prepareT : TransDecl := ⟨"prepare", ["draft"], "ready"⟩

/-- The `finish` transition declaration of the report workflow. -/
def finishT : TransDecl := ⟨"finish", ["ready"], "complete"⟩

/-- The `has_content` check of src/example.py:
`doc.content is not None and len(doc.content) > 0`. -/
def has_content : Check :=
  { name := "has_content",
    expr := fun d => match d.content with
      | none => false
      | some c => decide (0 < c.length),
    error_msg := some "Content is empty" }

/-- The `has_keywords` check of src/example.py: `doc.keywords` — the
truthiness of the keyword list, i.e. non-emptiness. -/
def has_keywords : Check :=
  { name := "has_keywords",
    expr := fun d => !d.keywords.isEmpty,
    error_msg := some "No keywords defined" }

/-- The `title_size` check of src/example.py: `len(doc.title) >= 8`. -/
def title_size : Check :=
  { name := "title_size",
    expr := fun d => decide (8 ≤ d.title.length),
    error_msg := some "Title too short (at least 8 chars)" }

/-- The check list handed to `Report` in the src/example.py doctest. -/
def reportChecks : List Check :=
  [has_content, has_keywords, title_size]

/-- `Report.__init__` (src/example.py): a fresh report with an empty history,
the given checks, and the workflow's initial state. -/
def mkReport (title : String) (content : Option String) (keywords : List String)
    (checks : List Check) : Entity :=
  ⟨title, content, keywords, checks, [], reportWorkflow.initial_state⟩

/-- The decorated implementation of `Report.prepare`:
`@check_any('has_content', 'has_keywords')` over `@keep_history` over the
`pass` body (src/example.py lines 133-137). -/
def prepareImpl : Action :=
  check_any ["has_content", "has_keywords"] "prepare" (keep_history "prepare" passEffect)

/-- The decorated implementation of `Report.finish`:
`@check_all('has_content', 'title_size')` over `@keep_history` over the
`pass` body (src/example.py lines 139-143). -/
def finishImpl : Action :=
  check_all ["has_content", "title_size"] (keep_history "finish" passEffect)

/-- Violations detected during dynamic workflow construction (spec §4.6),
each carrying the offending names. -/
inductive WorkflowDefinitionError where
  | duplicateState (name : String)
  | duplicateTransition (name : String)
  | undeclaredSource (transition : String) (source : String)
  | undeclaredTarget (transition : String) (target : String)
  | undeclaredInitial (state : String)
deriving DecidableEq

/-- First element of the list that occurs again later. -/
def firstDup : List String → Option String
  | [] => none
  | x :: xs => if x ∈ xs then some x else firstDup xs

/-- First source state of the transition that is not a declared state
name. -/
def badSource (sn : List String) (t : TransDecl) : Option String :=
  t.sources.find? (fun s => !(sn.contains s))

/-- Whether the construction failed. -/
def isError : Except WorkflowDefinitionError WorkflowDef → Bool
  | Except.error _ => true
  | Except.ok _ => false

/-- Modelled from the spec: `make_workflow` (src/docflows/docflows.py lines
56-75) delegates all validation to the external `xworkflows.base.WorkflowMeta`
metaclass, which is a dependency and not part of src/; spec §4.6 requires the
build to reject duplicate state names, duplicate transition names, transition
sources or targets that are not declared states, and an undeclared
`initial_state`, failing with a `WorkflowDefinitionError` that lists the
specific violation, and to produce no usable workflow definition in that
case. -/
def make_workflow (states : List StateDecl) (transitions : List TransDecl)
    (initial_state : String) : Except WorkflowDefinitionError WorkflowDef :=
  match firstDup (states.map StateDecl.name) with
  | some s => Except.error (WorkflowDefinitionError.duplicateState s)
  | none =>
  match firstDup (transitions.map TransDecl.name) with
  | some t => Except.error (WorkflowDefinitionError.duplicateTransition t)
  | none =>
  match transitions.find? (fun t => !((states.map StateDecl.name).contains t.target)) with
  | some t => Except.error (WorkflowDefinitionError.undeclaredTarget t.name t.target)
  | none =>
  match transitions.find? (fun t => (badSource (states.map StateDecl.name) t).isSome) with
  | some t =>
    Except.error (WorkflowDefinitionError.undeclaredSource t.name
      ((badSource (states.map StateDecl.name) t).getD ""))
  | none =>
  if (states.map StateDecl.name).contains initial_state then
    Except.ok ⟨states, transitions, initial_state⟩
  else Except.error (WorkflowDefinitionError.undeclaredInitial initial_state)

/-- The boolean value a named guard evaluates to against the given document
data (false when the name does not resolve to a check). -/
def guardVal (cl : List Check) (d : DocData) (n : String) : Bool :=
  match CheckList.getattr cl n with
  | GetattrResult.check c => c.verify d
  | _ => false

/-- The failure pairs `check_any`'s loop collects, assuming every name
resolves to a check. -/
def failuresOf (cl : List Check) (names : List String) (d : DocData) :
    List (String × Option String) :=
  match names with
  | [] => []
  | n :: rest =>
    match CheckList.getattr cl n with
    | GetattrResult.check c =>
      if c.verify d then failuresOf cl rest d
      else (n, c.error_msg) :: failuresOf cl rest d
    | _ => failuresOf cl rest d

/-- Whether `needle` occurs as a contiguous substring of `hay`. -/
def occursInChars (needle : List Char) : List Char → Bool
  | [] => needle.isEmpty
  | c :: rest => needle.isPrefixOf (c :: rest) || occursInChars needle rest

/-- Whether one string occurs inside another. -/
def occursIn (needle hay : String) : Bool :=
  occursInChars needle.data hay.data

/-- Whether event `a` occurs in the list strictly before some occurrence of
event `b`. -/
def precedes (a b : Ev) : List Ev → Bool
  | [] => false
  | x :: xs => (x == a && xs.contains b) || precedes a b xs

/-- The report of the src/example.py doctest right after construction: title
"Report1", no content, keywords `['bar']`. -/
def draftRep : Entity :=
  mkReport "Report1" none ["bar"] reportChecks

/-- A freshly constructed report with no content and no keywords, so that
every `prepare` guard fails. -/
def emptyDraftRep : Entity :=
  mkReport "Report1" none [] reportChecks

/-- The report of the src/example.py doctest in the `ready` state with content
and a long-enough title, so that every `finish` guard passes. -/
def readyRep : Entity :=
  { title := "Report_1", content := some "foo", keywords := ["bar"],
    checks := reportChecks, history := ["Larry: prepare"], state := "ready" }

/-- A report in the `ready` state with no content, so that the first `finish`
guard fails. -/
def readyNoContent : Entity :=
  { title := "Report1", content := none, keywords := ["bar"],
    checks := reportChecks, history := ["Larry: prepare"], state := "ready" }

/-- A report in the `submitted` state, as reached in the src/example.py
doctest right before the rejected `finish` call. -/
def submittedRep : Entity :=
  { title := "Report_1", content := some "foo bar", keywords := ["bar"],
    checks := reportChecks,
    history := ["Larry: prepare", "Curly: finish", "Curly: submit",
                "Moe: reject", "Larry: finish", "Larry: submit"],
    state := "submitted" }

/-- C1: for every workflow instance and every state s reachable from the
initial state, invoking a transition of the workflow whose permitted sources
do not include s fails with `InvalidTransitionError` naming the transition and
the current state, fires no hook, and leaves the instance — current state and
history included — exactly as before the call. -/
theorem invalid_transition_rejected (wf : WorkflowDef) (s : String)
    (hreach : Reachable wf s) (t : TransDecl) (ht : t ∈ wf.transitions)
    (impl : Action) (bh : Entity → Option Err) (inst : Entity)
    (args : List String) (user : Option String)
    (hstate : inst.state = s) (hnot : s ∉ t.sources) :
    runTransition t impl bh inst args user =
      ⟨inst, [], some (Err.invalidTransition t.name s)⟩ := by
  subst hstate
  unfold runTransition
  rw [if_neg hnot]

/-- Witness for C1: `submitted` is reachable in the report workflow, and
calling `finish` there fails with the invalid-transition error while the
report is returned untouched — the scenario of the src/example.py doctest. -/
theorem invalid_transition_rejected_witness :
    Reachable reportWorkflow "submitted" ∧
    runTransition finishT finishImpl noHooks submittedRep ["Moe"] none =
      ⟨submittedRep, [], some (Err.invalidTransition "finish" "submitted")⟩ := by
  have hr : Reachable reportWorkflow "submitted" :=
    Reachable.step (t := ⟨"submit", ["complete"], "submitted"⟩)
      (Reachable.step (t := ⟨"finish", ["ready"], "complete"⟩)
        (Reachable.step (t := ⟨"prepare", ["draft"], "ready"⟩)
          Reachable.init (by decide) (by decide))
        (by decide) (by decide))
      (by decide) (by decide)
  exact ⟨hr, invalid_transition_rejected reportWorkflow "submitted" hr finishT (by decide)
    finishImpl noHooks submittedRep ["Moe"] none rfl (by decide)⟩

/-- C7 counterexample: the allow-list itself exposes the
attribute-introspection primitives `getattr`, `hasattr` and `type`, so the
evaluation environment is not free of
attribute-introspection-of-arbitrary-objects primitives as the claim
states. -/
theorem sandbox_exposes_introspection :
    "getattr" ∈ SAFE_BUILTINS ∧ "hasattr" ∈ SAFE_BUILTINS ∧ "type" ∈ SAFE_BUILTINS := by
  decide

/-- C7 amended: evaluation is restricted to the fixed `SAFE_BUILTINS`
allow-list, which contains no module-import primitive (`__import__`) and no
code-execution primitive (`eval`, `exec`, `compile`) and no file primitive
(`open`), but it does expose the attribute-introspection primitives
`getattr`, `hasattr`, `type` and `dir`. -/
theorem sandbox_allowlist_contents :
    "__import__" ∉ SAFE_BUILTINS ∧ "eval" ∉ SAFE_BUILTINS ∧
    "exec" ∉ SAFE_BUILTINS ∧ "compile" ∉ SAFE_BUILTINS ∧
    "open" ∉ SAFE_BUILTINS ∧ "input" ∉ SAFE_BUILTINS ∧
    "getattr" ∈ SAFE_BUILTINS ∧ "hasattr" ∈ SAFE_BUILTINS ∧
    "type" ∈ SAFE_BUILTINS ∧ "dir" ∈ SAFE_BUILTINS := by
  decide

/-- C9 counterexample: the guard name "checks" is absent from the report's
guard set, yet looking it up does not fail — normal attribute lookup finds the
`CheckList`'s real `checks` attribute (the raw mapping) before `__getattr__`
runs, silently returning a non-`Check` value instead of raising. -/
theorem lookup_shadowed_by_checks_attribute :
    CheckList.getattr reportChecks "checks" = GetattrResult.checksAttr ∧
    (reportChecks.map Check.name).contains "checks" = false :=
  ⟨rfl, rfl⟩

/-- C9 amended: for every guard set and every name that is neither present in
it nor shadowed by a real attribute of the `CheckList` object (the `checks`
attribute itself; inherited `object` attributes behave likewise and are not
modelled), the lookup fails with a `KeyError` carrying the missing name — the
spec's `UnknownGuardError` — not with a silent no-op. -/
theorem lookup_unknown_raises_keyerror (cl : List Check) (n : String)
    (habs : n ∉ cl.map Check.name) (hne : n ≠ "checks") :
    CheckList.getattr cl n = GetattrResult.keyError n := by
  unfold CheckList.getattr
  rw [if_neg hne]
  have hnone : CheckList.lookup cl n = none := by
    unfold CheckList.lookup
    rw [List.find?_eq_none]
    intro c hc hb
    have hcn : c.name = n := by simpa using hb
    apply habs
    rw [← hcn]
    exact List.mem_map_of_mem Check.name (List.mem_reverse.mp hc)
  rw [hnone]

/-- Witness for C9 amended: looking up a name absent from the report's guard
set fails with a `KeyError` carrying that name. -/
theorem lookup_unknown_raises_keyerror_witness :
    CheckList.getattr reportChecks "absent_check" = GetattrResult.keyError "absent_check" :=
  lookup_unknown_raises_keyerror reportChecks "absent_check" (by decide) (by decide)

/-- C10: a transition wrapped with `check_any` applied to an empty list of
guard names always fails with the all-checks-failed error — zero collected
failures equals zero checks — no guard is evaluated and the wrapped effect
never runs, the entity coming back untouched. -/
theorem check_any_empty_always_fails (fname : String) (f : Action) (inst : Entity)
    (args : List String) (user : Option String) :
    check_any [] fname f inst args user =
      ⟨inst, [], some (Err.allChecksFailed ("All checks failed for " ++ fname))⟩ :=
  rfl

theorem scanAll_of_all_true (cl : List Check) (d : DocData) :
    ∀ (names : List String),
      (∀ n ∈ names, ∃ c, CheckList.getattr cl n = GetattrResult.check c) →
      (∀ n ∈ names, guardVal cl d n = true) →
      scanAll cl names d = (names.map (fun n => Ev.guardEval n true), none) := by
  intro names
  induction names with
  | nil => intro _ _; rfl
  | cons n rest ih =>
    intro hres hall
    obtain ⟨c, hc⟩ := hres n (List.mem_cons_self n rest)
    have hv : c.verify d = true := by
      have h := hall n (List.mem_cons_self n rest)
      unfold guardVal at h
      rw [hc] at h
      exact h
    simp only [scanAll, hc, hv, if_true]
    rw [ih (fun m hm => hres m (List.mem_cons_of_mem n hm))
        (fun m hm => hall m (List.mem_cons_of_mem n hm))]
    rfl

theorem scanAll_first_false (cl : List Check) (d : DocData) (n : String) (c : Check)
    (post : List String) (hc : CheckList.getattr cl n = GetattrResult.check c)
    (hcv : c.verify d = false) :
    ∀ (pre : List String),
      (∀ m ∈ pre, ∃ cm, CheckList.getattr cl m = GetattrResult.check cm) →
      (∀ m ∈ pre, guardVal cl d m = true) →
      scanAll cl (pre ++ n :: post) d =
        (pre.map (fun m => Ev.guardEval m true) ++ [Ev.guardEval n false],
         some (Err.guardFailed c.error_msg)) := by
  intro pre
  induction pre with
  | nil =>
    intro _ _
    simp only [List.nil_append, scanAll, hc, hcv]
    rfl
  | cons m pre ih =>
    intro hres hall
    obtain ⟨cm, hcm⟩ := hres m (List.mem_cons_self m pre)
    have hv : cm.verify d = true := by
      have h := hall m (List.mem_cons_self m pre)
      unfold guardVal at h
      rw [hcm] at h
      exact h
    simp only [List.cons_append, scanAll, hcm, hv, if_true, List.append_eq]
    rw [ih (fun x hx => hres x (List.mem_cons_of_mem m hx))
        (fun x hx => hall x (List.mem_cons_of_mem m hx))]
    rfl

/-- C3: with `all-of(G1,...,Gn)` the named guards are evaluated in the given
order; if every guard evaluates true the wrapped effect runs (on the entity as
given); on the first guard that evaluates false the call fails with an error
carrying that guard's configured `error_msg`, none of the remaining guards is
evaluated — the trace records exactly the passing prefix and the failing
guard — the effect does not run, and the entity is returned unchanged. -/
theorem check_all_spec (names : List String) (f : Action) (inst : Entity)
    (args : List String) (user : Option String)
    (hres : ∀ n ∈ names, ∃ c, CheckList.getattr inst.checks n = GetattrResult.check c) :
    ((∀ n ∈ names, guardVal inst.checks inst.doc n = true) →
      check_all names f inst args user =
        ⟨(f inst args user).inst,
         names.map (fun n => Ev.guardEval n true) ++ (f inst args user).trace,
         (f inst args user).err⟩)
    ∧
    (∀ pre n post c, names = pre ++ n :: post →
      (∀ m ∈ pre, guardVal inst.checks inst.doc m = true) →
      CheckList.getattr inst.checks n = GetattrResult.check c →
      c.verify inst.doc = false →
      check_all names f inst args user =
        ⟨inst, pre.map (fun m => Ev.guardEval m true) ++ [Ev.guardEval n false],
         some (Err.guardFailed c.error_msg)⟩) := by
  constructor
  · intro hall
    unfold check_all
    rw [scanAll_of_all_true inst.checks inst.doc names hres hall]
  · intro pre n post c hsplit hpre hc hcv
    unfold check_all
    rw [hsplit]
    rw [scanAll_first_false inst.checks inst.doc n c post hc hcv pre
        (fun m hm => hres m (by rw [hsplit]; exact List.mem_append_left _ hm))
        hpre]

/-- Witness for C3: the doctest's first rejected `finish` — no content, so the
first guard fails with "Content is empty", `title_size` is never evaluated and
the report is unchanged. -/
theorem check_all_spec_witness :
    check_all ["has_content", "title_size"] (keep_history "finish" passEffect)
        draftRep ["Curly"] none =
      ⟨draftRep, [Ev.guardEval "has_content" false],
       some (Err.guardFailed (some "Content is empty"))⟩ := by
  have hres : ∀ n ∈ ["has_content", "title_size"],
      ∃ c, CheckList.getattr draftRep.checks n = GetattrResult.check c := by
    intro n hn
    fin_cases hn
    · exact ⟨has_content, rfl⟩
    · exact ⟨title_size, rfl⟩
  have h := (check_all_spec ["has_content", "title_size"] (keep_history "finish" passEffect)
      draftRep ["Curly"] none hres).2 [] "has_content" ["title_size"] has_content rfl
      (by intro m hm; cases hm) rfl rfl
  exact h

theorem evalAny_resolved (cl : List Check) (d : DocData) :
    ∀ (names : List String),
      (∀ n ∈ names, ∃ c, CheckList.getattr cl n = GetattrResult.check c) →
      evalAny cl names d =
        (names.map (fun n => Ev.guardEval n (guardVal cl d n)),
         failuresOf cl names d, none) := by
  intro names
  induction names with
  | nil => intro _; rfl
  | cons n rest ih =>
    intro hres
    obtain ⟨c, hc⟩ := hres n (List.mem_cons_self n rest)
    have hg : guardVal cl d n = c.verify d := by
      unfold guardVal
      rw [hc]
    simp only [evalAny, hc]
    rw [ih (fun m hm => hres m (List.mem_cons_of_mem n hm))]
    simp only [failuresOf, hc, List.map_cons, hg]

theorem failuresOf_length_le (cl : List Check) (d : DocData) :
    ∀ (names : List String), (failuresOf cl names d).length ≤ names.length := by
  intro names
  induction names with
  | nil => exact Nat.le_refl 0
  | cons n rest ih =>
    cases hc : CheckList.getattr cl n with
    | check c =>
      simp only [failuresOf, hc]
      by_cases hv : c.verify d = true
      · rw [if_pos hv]
        exact Nat.le_trans ih (Nat.le_succ _)
      · rw [if_neg hv]
        exact Nat.succ_le_succ ih
    | checksAttr =>
      simp only [failuresOf, hc]
      exact Nat.le_trans ih (Nat.le_succ _)
    | keyError m =>
      simp only [failuresOf, hc]
      exact Nat.le_trans ih (Nat.le_succ _)

theorem failuresOf_length_lt_of_true (cl : List Check) (d : DocData) :
    ∀ (names : List String),
      (∀ n ∈ names, ∃ c, CheckList.getattr cl n = GetattrResult.check c) →
      ∀ n0 ∈ names, guardVal cl d n0 = true →
      (failuresOf cl names d).length < names.length := by
  intro names
  induction names with
  | nil => intro _ n0 h0; cases h0
  | cons n rest ih =>
    intro hres n0 h0 htrue
    obtain ⟨c, hc⟩ := hres n (List.mem_cons_self n rest)
    simp only [failuresOf, hc]
    by_cases hv : c.verify d = true
    · rw [if_pos hv]
      exact Nat.lt_succ_of_le (failuresOf_length_le cl d rest)
    · rw [if_neg hv]
      rcases List.mem_cons.mp h0 with heq | hmem
      · exfalso
        apply hv
        have h := htrue
        unfold guardVal at h
        rw [heq, hc] at h
        exact h
      · exact Nat.succ_lt_succ
          (ih (fun m hm => hres m (List.mem_cons_of_mem n hm)) n0 hmem htrue)

theorem failuresOf_length_eq_of_all_false (cl : List Check) (d : DocData) :
    ∀ (names : List String),
      (∀ n ∈ names, ∃ c, CheckList.getattr cl n = GetattrResult.check c) →
      (∀ n ∈ names, guardVal cl d n = false) →
      (failuresOf cl names d).length = names.length := by
  intro names
  induction names with
  | nil => intro _ _; rfl
  | cons n rest ih =>
    intro hres hall
    obtain ⟨c, hc⟩ := hres n (List.mem_cons_self n rest)
    have hv : c.verify d = false := by
      have h := hall n (List.mem_cons_self n rest)
      unfold guardVal at h
      rw [hc] at h
      exact h
    simp only [failuresOf, hc, hv, Bool.false_eq_true, if_false, List.length_cons]
    rw [ih (fun m hm => hres m (List.mem_cons_of_mem n hm))
        (fun m hm => hall m (List.mem_cons_of_mem n hm))]

/-- C4 counterexample: a report with no content and no keywords makes every
`prepare` guard fail; the raised error is
`Exception('All checks failed for prepare')` — it carries the transition name
but neither attempted guard name occurs anywhere in it, so the claim that the
error carries the attempted guard names is false (the guard names go only to
the logging collaborator). -/
theorem check_any_error_lacks_guard_names :
    (check_any ["has_content", "has_keywords"] "prepare"
        (keep_history "prepare" passEffect) emptyDraftRep ["Larry"] none).err =
      some (Err.allChecksFailed "All checks failed for prepare") ∧
    occursIn "has_content" "All checks failed for prepare" = false ∧
    occursIn "has_keywords" "All checks failed for prepare" = false :=
  ⟨rfl, rfl, rfl⟩

/-- C4 amended: with `any-of(G1,...,Gn)` every named guard is evaluated in the
given order (no short-circuit); if at least one guard evaluates true the
wrapped effect runs exactly once; if every guard evaluates false the call
fails with an error that carries the transition name — the message
`"All checks failed for <transition>"` — while the attempted guard names are
only reported to the logging collaborator, not carried by the raised error,
and the entity is returned unchanged. -/
theorem check_any_spec (names : List String) (fname : String) (f : Action)
    (inst : Entity) (args : List String) (user : Option String)
    (hres : ∀ n ∈ names, ∃ c, CheckList.getattr inst.checks n = GetattrResult.check c) :
    ((∃ n0, n0 ∈ names ∧ guardVal inst.checks inst.doc n0 = true) →
      check_any names fname f inst args user =
        ⟨(f inst args user).inst,
         names.map (fun n => Ev.guardEval n (guardVal inst.checks inst.doc n)) ++
           (f inst args user).trace,
         (f inst args user).err⟩)
    ∧
    ((∀ n ∈ names, guardVal inst.checks inst.doc n = false) →
      check_any names fname f inst args user =
        ⟨inst, names.map (fun n => Ev.guardEval n false),
         some (Err.allChecksFailed ("All checks failed for " ++ fname))⟩) := by
  constructor
  · intro hex
    obtain ⟨n0, hn0, htrue⟩ := hex
    unfold check_any
    rw [evalAny_resolved inst.checks inst.doc names hres]
    dsimp only
    have hlt : (failuresOf inst.checks names inst.doc).length < names.length :=
      failuresOf_length_lt_of_true inst.checks inst.doc names hres n0 hn0 htrue
    rw [if_neg (Nat.ne_of_lt hlt)]
  · intro hall
    unfold check_any
    rw [evalAny_resolved inst.checks inst.doc names hres]
    dsimp only
    rw [if_pos (failuresOf_length_eq_of_all_false inst.checks inst.doc names hres hall)]
    have hmap : names.map (fun n => Ev.guardEval n (guardVal inst.checks inst.doc n)) =
        names.map (fun n => Ev.guardEval n false) := by
      apply List.map_congr_left
      intro n hn
      rw [hall n hn]
    rw [hmap]

/-- Witness for C4 amended: the doctest's `prepare` — `has_content` fails but
`has_keywords` passes, both are evaluated, and the effect (with its history
append) runs exactly once. -/
theorem check_any_spec_witness :
    check_any ["has_content", "has_keywords"] "prepare"
        (keep_history "prepare" passEffect) draftRep ["Larry"] none =
      ⟨{ draftRep with history := ["Larry: prepare"] },
       [Ev.guardEval "has_content" false, Ev.guardEval "has_keywords" true,
        Ev.historyAppend "Larry: prepare", Ev.effectRun], none⟩ := by
  have hres : ∀ n ∈ ["has_content", "has_keywords"],
      ∃ c, CheckList.getattr draftRep.checks n = GetattrResult.check c := by
    intro n hn
    fin_cases hn
    · exact ⟨has_content, rfl⟩
    · exact ⟨has_keywords, rfl⟩
  have h := (check_any_spec ["has_content", "has_keywords"] "prepare"
      (keep_history "prepare" passEffect) draftRep ["Larry"] none hres).1
      ⟨"has_keywords", by decide, rfl⟩
  exact h

theorem keep_history_passEffect_eq (fname : String) (inst : Entity)
    (args : List String) (user : Option String) :
    keep_history fname passEffect inst args user =
      ⟨{ inst with history := inst.history ++ [(actorOf args user).1 ++ ": " ++ fname] },
       [Ev.historyAppend ((actorOf args user).1 ++ ": " ++ fname), Ev.effectRun], none⟩ :=
  rfl

theorem keep_history_failEffect_eq (fname msg : String) (inst : Entity)
    (args : List String) (user : Option String) :
    keep_history fname (failEffect msg) inst args user =
      ⟨{ inst with history := inst.history ++ [(actorOf args user).1 ++ ": " ++ fname] },
       [Ev.historyAppend ((actorOf args user).1 ++ ": " ++ fname), Ev.effectRun],
       some (Err.effectError msg)⟩ :=
  rfl

theorem check_all_scan_ok (names : List String) (f : Action) (inst : Entity)
    (args : List String) (user : Option String) (tr : List Ev)
    (h : scanAll inst.checks names inst.doc = (tr, none)) :
    check_all names f inst args user =
      ⟨(f inst args user).inst, tr ++ (f inst args user).trace, (f inst args user).err⟩ := by
  unfold check_all
  rw [h]

theorem check_all_scan_err (names : List String) (f : Action) (inst : Entity)
    (args : List String) (user : Option String) (tr : List Ev) (e : Err)
    (h : scanAll inst.checks names inst.doc = (tr, some e)) :
    check_all names f inst args user = ⟨inst, tr, some e⟩ := by
  unfold check_all
  rw [h]

theorem check_any_eval_err (names : List String) (fname : String) (f : Action)
    (inst : Entity) (args : List String) (user : Option String) (tr : List Ev)
    (fs : List (String × Option String)) (e : Err)
    (h : evalAny inst.checks names inst.doc = (tr, fs, some e)) :
    check_any names fname f inst args user = ⟨inst, tr, some e⟩ := by
  unfold check_any
  rw [h]

theorem check_any_all_failed (names : List String) (fname : String) (f : Action)
    (inst : Entity) (args : List String) (user : Option String) (tr : List Ev)
    (fs : List (String × Option String))
    (h : evalAny inst.checks names inst.doc = (tr, fs, none))
    (hlen : fs.length = names.length) :
    check_any names fname f inst args user =
      ⟨inst, tr, some (Err.allChecksFailed ("All checks failed for " ++ fname))⟩ := by
  unfold check_any
  rw [h]
  dsimp only
  rw [if_pos hlen]

theorem check_all_err_none (names : List String) (f : Action) (inst : Entity)
    (args : List String) (user : Option String)
    (h : (check_all names f inst args user).err = none) :
    (check_all names f inst args user).inst = (f inst args user).inst := by
  unfold check_all at h ⊢
  cases hscan : scanAll inst.checks names inst.doc with
  | mk tr e =>
    cases e with
    | some e0 =>
      rw [hscan] at h
      simp at h
    | none => rfl

theorem check_any_err_none (names : List String) (fname : String) (f : Action)
    (inst : Entity) (args : List String) (user : Option String)
    (h : (check_any names fname f inst args user).err = none) :
    (check_any names fname f inst args user).inst = (f inst args user).inst := by
  unfold check_any at h ⊢
  cases hev : evalAny inst.checks names inst.doc with
  | mk tr rest =>
    cases rest with
    | mk fs e =>
      cases e with
      | some e0 =>
        rw [hev] at h
        simp at h
      | none =>
        rw [hev] at h
        dsimp only at h ⊢
        by_cases hlen : fs.length = names.length
        · rw [if_pos hlen] at h
          simp at h
        · rw [if_neg hlen]

theorem runTransition_success (t : TransDecl) (impl : Action)
    (bh : Entity → Option Err) (inst : Entity) (args : List String)
    (user : Option String)
    (h : (runTransition t impl bh inst args user).err = none) :
    inst.state ∈ t.sources ∧ bh inst = none ∧ (impl inst args user).err = none ∧
    runTransition t impl bh inst args user =
      ⟨{ (impl inst args user).inst with state := t.target },
       Ev.beforeHook :: (impl inst args user).trace ++
         [Ev.stateMutation t.target, Ev.afterHook, Ev.onEnterHook], none⟩ := by
  by_cases hs : inst.state ∈ t.sources
  · cases hb : bh inst with
    | some e =>
      exfalso
      unfold runTransition at h
      rw [if_pos hs, hb] at h
      simp at h
    | none =>
      cases he : (impl inst args user).err with
      | some e =>
        exfalso
        unfold runTransition at h
        rw [if_pos hs, hb] at h
        dsimp only at h
        rw [he] at h
        simp at h
      | none =>
        refine ⟨hs, rfl, rfl, ?_⟩
        unfold runTransition
        rw [if_pos hs, hb]
        dsimp only
        rw [he]
  · exfalso
    unfold runTransition at h
    rw [if_neg hs] at h
    simp at h

/-- C2 counterexample: a transition invocation that fails in the effect step
(step 4) does NOT leave the history unchanged — `keep_history` appends its
entry before calling the effect, and the in-place append survives the raised
exception.  The current state is unchanged, but the history has grown. -/
theorem effect_failure_retains_history_entry :
    (runTransition finishT (check_all ["has_content", "title_size"]
        (keep_history "finish" (failEffect "boom"))) noHooks readyRep ["Curly"] none).err =
      some (Err.effectError "boom") ∧
    (runTransition finishT (check_all ["has_content", "title_size"]
        (keep_history "finish" (failEffect "boom"))) noHooks readyRep ["Curly"] none).inst.history =
      ["Larry: prepare", "Curly: finish"] ∧
    readyRep.history = ["Larry: prepare"] ∧
    (runTransition finishT (check_all ["has_content", "title_size"]
        (keep_history "finish" (failEffect "boom"))) noHooks readyRep ["Curly"] none).inst.state =
      "ready" :=
  ⟨rfl, rfl, rfl, rfl⟩

/-- C2 amended: a transition invocation that fails in the before-hook step or
in the guard-evaluation step — a failing `all-of` guard, a guard-lookup error,
or an `any-of` set whose guards all fail — leaves the entity, its
`current_state` and its history exactly unchanged; an invocation that fails in
the effect step leaves `current_state` unchanged but retains the history entry
that `keep_history` appended before running the effect. -/
theorem guard_failure_leaves_entity_unchanged :
    (∀ (t : TransDecl) (impl : Action) (bh : Entity → Option Err) (inst : Entity)
        (args : List String) (user : Option String) (e : Err),
      inst.state ∈ t.sources → bh inst = some e →
      runTransition t impl bh inst args user = ⟨inst, [Ev.beforeHook], some e⟩)
    ∧
    (∀ (t : TransDecl) (names : List String) (f : Action) (bh : Entity → Option Err)
        (inst : Entity) (args : List String) (user : Option String)
        (tr : List Ev) (e : Err),
      inst.state ∈ t.sources → bh inst = none →
      scanAll inst.checks names inst.doc = (tr, some e) →
      runTransition t (check_all names f) bh inst args user =
        ⟨inst, Ev.beforeHook :: tr, some e⟩)
    ∧
    (∀ (t : TransDecl) (names : List String) (fname : String) (f : Action)
        (bh : Entity → Option Err) (inst : Entity) (args : List String)
        (user : Option String) (tr : List Ev)
        (fs : List (String × Option String)) (e : Err),
      inst.state ∈ t.sources → bh inst = none →
      evalAny inst.checks names inst.doc = (tr, fs, some e) →
      runTransition t (check_any names fname f) bh inst args user =
        ⟨inst, Ev.beforeHook :: tr, some e⟩)
    ∧
    (∀ (t : TransDecl) (names : List String) (fname : String) (f : Action)
        (bh : Entity → Option Err) (inst : Entity) (args : List String)
        (user : Option String) (tr : List Ev)
        (fs : List (String × Option String)),
      inst.state ∈ t.sources → bh inst = none →
      evalAny inst.checks names inst.doc = (tr, fs, none) →
      fs.length = names.length →
      runTransition t (check_any names fname f) bh inst args user =
        ⟨inst, Ev.beforeHook :: tr,
         some (Err.allChecksFailed ("All checks failed for " ++ fname))⟩)
    ∧
    (∀ (t : TransDecl) (names : List String) (fname msg : String)
        (bh : Entity → Option Err) (inst : Entity) (args : List String)
        (user : Option String) (tr : List Ev),
      inst.state ∈ t.sources → bh inst = none →
      scanAll inst.checks names inst.doc = (tr, none) →
      (runTransition t (check_all names (keep_history fname (failEffect msg)))
          bh inst args user).err = some (Err.effectError msg) ∧
      (runTransition t (check_all names (keep_history fname (failEffect msg)))
          bh inst args user).inst.state = inst.state ∧
      (runTransition t (check_all names (keep_history fname (failEffect msg)))
          bh inst args user).inst.history =
        inst.history ++ [(actorOf args user).1 ++ ": " ++ fname]) := by
  refine ⟨?_, ?_, ?_, ?_, ?_⟩
  · intro t impl bh inst args user e hs hb
    unfold runTransition
    rw [if_pos hs, hb]
  · intro t names f bh inst args user tr e hs hb hscan
    unfold runTransition
    rw [if_pos hs, hb]
    dsimp only
    rw [check_all_scan_err names f inst args user tr e hscan]
  · intro t names fname f bh inst args user tr fs e hs hb hev
    unfold runTransition
    rw [if_pos hs, hb]
    dsimp only
    rw [check_any_eval_err names fname f inst args user tr fs e hev]
  · intro t names fname f bh inst args user tr fs hs hb hev hlen
    unfold runTransition
    rw [if_pos hs, hb]
    dsimp only
    rw [check_any_all_failed names fname f inst args user tr fs hev hlen]
  · intro t names fname msg bh inst args user tr hs hb hscan
    have hrun : runTransition t (check_all names (keep_history fname (failEffect msg)))
        bh inst args user =
        ⟨{ inst with history := inst.history ++ [(actorOf args user).1 ++ ": " ++ fname] },
         Ev.beforeHook :: (tr ++ [Ev.historyAppend ((actorOf args user).1 ++ ": " ++ fname),
           Ev.effectRun]),
         some (Err.effectError msg)⟩ := by
      unfold runTransition
      rw [if_pos hs, hb]
      dsimp only
      rw [check_all_scan_ok names (keep_history fname (failEffect msg)) inst args user tr hscan]
      rw [keep_history_failEffect_eq]
    rw [hrun]
    exact ⟨rfl, rfl, rfl⟩

/-- Witness for C2 amended: the doctest's rejected `finish` with no content
leaves the report exactly unchanged, while a `finish` whose effect raises
keeps the state but retains the appended history entry. -/
theorem guard_failure_leaves_entity_unchanged_witness :
    runTransition finishT (check_all ["has_content", "title_size"]
        (keep_history "finish" passEffect)) noHooks readyNoContent ["Curly"] none =
      ⟨readyNoContent, [Ev.beforeHook, Ev.guardEval "has_content" false],
       some (Err.guardFailed (some "Content is empty"))⟩ ∧
    (runTransition finishT (check_all ["has_content", "title_size"]
        (keep_history "finish" (failEffect "boom"))) noHooks readyRep ["Curly"] none).err =
      some (Err.effectError "boom") ∧
    (runTransition finishT (check_all ["has_content", "title_size"]
        (keep_history "finish" (failEffect "boom"))) noHooks readyRep ["Curly"] none).inst.state =
      readyRep.state ∧
    (runTransition finishT (check_all ["has_content", "title_size"]
        (keep_history "finish" (failEffect "boom"))) noHooks readyRep ["Curly"] none).inst.history =
      readyRep.history ++ ["Curly" ++ ": " ++ "finish"] := by
  refine ⟨?_, ?_⟩
  · exact guard_failure_leaves_entity_unchanged.2.1 finishT ["has_content", "title_size"]
      (keep_history "finish" passEffect) noHooks readyNoContent ["Curly"] none
      [Ev.guardEval "has_content" false] (Err.guardFailed (some "Content is empty"))
      (by decide) rfl rfl
  · exact guard_failure_leaves_entity_unchanged.2.2.2.2 finishT ["has_content", "title_size"]
      "finish" "boom" noHooks readyRep ["Curly"] none
      [Ev.guardEval "has_content" true, Ev.guardEval "title_size" true]
      (by decide) rfl rfl

/-- C5: every successful transition call — through any of the repo's three
decorator stacks (`check_all` over `keep_history`, `check_any` over
`keep_history`, or `keep_history` alone, each over a `pass` body) — appends
exactly one entry at the end of the history, formatted `"<actor>: <name>"`,
the actor being the explicit `user` keyword argument when supplied, else the
first positional argument, else `"UNKNOWN"`. -/
theorem history_single_entry (t : TransDecl) (names : List String) (fname : String)
    (bh : Entity → Option Err) (inst : Entity) (args : List String)
    (user : Option String) :
    ((runTransition t (check_all names (keep_history fname passEffect))
        bh inst args user).err = none →
      (runTransition t (check_all names (keep_history fname passEffect))
        bh inst args user).inst.history =
        inst.history ++ [(actorOf args user).1 ++ ": " ++ fname])
    ∧
    ((runTransition t (check_any names fname (keep_history fname passEffect))
        bh inst args user).err = none →
      (runTransition t (check_any names fname (keep_history fname passEffect))
        bh inst args user).inst.history =
        inst.history ++ [(actorOf args user).1 ++ ": " ++ fname])
    ∧
    ((runTransition t (keep_history fname passEffect) bh inst args user).err = none →
      (runTransition t (keep_history fname passEffect) bh inst args user).inst.history =
        inst.history ++ [(actorOf args user).1 ++ ": " ++ fname])
    ∧
    ((actorOf args user).1 = match user with
      | some u => u
      | none => match args with
        | a :: _ => a
        | [] => "UNKNOWN") := by
  refine ⟨?_, ?_, ?_, ?_⟩
  · intro herr
    obtain ⟨hs, hb, hie, heq⟩ := runTransition_success t _ bh inst args user herr
    rw [heq]
    dsimp only
    rw [check_all_err_none names (keep_history fname passEffect) inst args user hie]
    rw [keep_history_passEffect_eq]
  · intro herr
    obtain ⟨hs, hb, hie, heq⟩ := runTransition_success t _ bh inst args user herr
    rw [heq]
    dsimp only
    rw [check_any_err_none names fname (keep_history fname passEffect) inst args user hie]
    rw [keep_history_passEffect_eq]
  · intro herr
    obtain ⟨hs, hb, hie, heq⟩ := runTransition_success t _ bh inst args user herr
    rw [heq]
    dsimp only
    rw [keep_history_passEffect_eq]
  · cases user <;> cases args <;> rfl

/-- Witness for C5: the doctest's first `prepare` succeeds and the history
becomes exactly `['Larry: prepare']`. -/
theorem history_single_entry_witness :
    (runTransition prepareT prepareImpl noHooks draftRep ["Larry"] none).err = none ∧
    (runTransition prepareT prepareImpl noHooks draftRep ["Larry"] none).inst.history =
      ["Larry: prepare"] := by
  refine ⟨rfl, ?_⟩
  have h := (history_single_entry prepareT ["has_content", "has_keywords"] "prepare"
      noHooks draftRep ["Larry"] none).2.1 rfl
  exact h.trans rfl

/-- C6 counterexample: in a successful `finish` call the history-append event
occurs strictly before the effect runs — the trace contains no effect-run
preceding the append, and does contain the append preceding the effect-run —
so the claim that the entry is appended only after the effect has completed is
false. -/
theorem history_append_precedes_effect :
    (runTransition finishT finishImpl noHooks readyRep ["Curly"] none).err = none ∧
    precedes Ev.effectRun (Ev.historyAppend "Curly: finish")
      (runTransition finishT finishImpl noHooks readyRep ["Curly"] none).trace = false ∧
    precedes (Ev.historyAppend "Curly: finish") Ev.effectRun
      (runTransition finishT finishImpl noHooks readyRep ["Curly"] none).trace = true :=
  ⟨rfl, rfl, rfl⟩

/-- C6 amended: for every successful transition call the history entry is
appended after the guards have passed and BEFORE the effect runs, and before
the state mutation and the after-transition hooks (order: guard pass → history
append → effect → state mutation → after-hooks → on-enter hooks). -/
theorem history_append_position (t : TransDecl) (names : List String)
    (fname : String) (bh : Entity → Option Err) (inst : Entity)
    (args : List String) (user : Option String) (tr : List Ev)
    (hs : inst.state ∈ t.sources) (hb : bh inst = none)
    (hscan : scanAll inst.checks names inst.doc = (tr, none)) :
    runTransition t (check_all names (keep_history fname passEffect)) bh inst args user =
      ⟨{ inst with
           history := inst.history ++ [(actorOf args user).1 ++ ": " ++ fname],
           state := t.target },
       Ev.beforeHook ::
         (tr ++ [Ev.historyAppend ((actorOf args user).1 ++ ": " ++ fname), Ev.effectRun]) ++
         [Ev.stateMutation t.target, Ev.afterHook, Ev.onEnterHook],
       none⟩ := by
  unfold runTransition
  rw [if_pos hs, hb]
  dsimp only
  rw [check_all_scan_ok names (keep_history fname passEffect) inst args user tr hscan]
  rw [keep_history_passEffect_eq]

/-- Witness for C6 amended: the doctest's successful `finish` from `ready`,
with the full ordered trace. -/
theorem history_append_position_witness :
    runTransition finishT finishImpl noHooks readyRep ["Curly"] none =
      ⟨{ readyRep with history := ["Larry: prepare", "Curly: finish"], state := "complete" },
       [Ev.beforeHook, Ev.guardEval "has_content" true, Ev.guardEval "title_size" true,
        Ev.historyAppend "Curly: finish", Ev.effectRun,
        Ev.stateMutation "complete", Ev.afterHook, Ev.onEnterHook],
       none⟩ := by
  have h := history_append_position finishT ["has_content", "title_size"] "finish"
      noHooks readyRep ["Curly"] none
      [Ev.guardEval "has_content" true, Ev.guardEval "title_size" true]
      (by decide) rfl rfl
  exact h.trans rfl

/-- C8: dynamic workflow construction whose input declares a transition with
an undeclared target state or an undeclared source state, or whose
`initial_state` is not a declared state, fails with a
`WorkflowDefinitionError` (carrying the offending names), and no usable
workflow definition is produced. -/
theorem make_workflow_rejects_undeclared (states : List StateDecl)
    (transitions : List TransDecl) (initial : String)
    (hviol : (∃ t ∈ transitions, t.target ∉ states.map StateDecl.name ∨
              ∃ s ∈ t.sources, s ∉ states.map StateDecl.name) ∨
             initial ∉ states.map StateDecl.name) :
    isError (make_workflow states transitions initial) = true := by
  unfold make_workflow
  cases h1 : firstDup (states.map StateDecl.name) with
  | some s => rfl
  | none =>
    cases h2 : firstDup (transitions.map TransDecl.name) with
    | some t => rfl
    | none =>
      cases h3 : transitions.find?
          (fun t => !((states.map StateDecl.name).contains t.target)) with
      | some t => rfl
      | none =>
        cases h4 : transitions.find?
            (fun t => (badSource (states.map StateDecl.name) t).isSome) with
        | some t => rfl
        | none =>
          by_cases h5 : (states.map StateDecl.name).contains initial = true
          · exfalso
            rcases hviol with ⟨t, ht, hin⟩ | hini
            · rcases hin with htar | ⟨s, hsmem, hsnot⟩
              · have h6 := List.find?_eq_none.mp h3 t ht
                apply htar
                simp at h6
                exact List.mem_map.mpr h6
              · have h6 := List.find?_eq_none.mp h4 t ht
                apply hsnot
                unfold badSource at h6
                have h7 : t.sources.find?
                    (fun s => !((states.map StateDecl.name).contains s)) = none := by
                  cases hf : t.sources.find?
                      (fun s => !((states.map StateDecl.name).contains s)) with
                  | none => rfl
                  | some x =>
                    rw [hf] at h6
                    simp at h6
                have h8 := List.find?_eq_none.mp h7 s hsmem
                simp at h8
                exact List.mem_map.mpr h8
            · apply hini
              simp at h5
              exact List.mem_map.mpr h5
          · rw [if_neg h5]
            rfl

/-- Witness for C8: a one-state declaration with a transition targeting an
undeclared state is rejected. -/
theorem make_workflow_rejects_undeclared_witness :
    isError (make_workflow [⟨"draft", "Draft"⟩]
      [⟨"finish", ["draft"], "complete"⟩] "draft") = true := by
  apply make_workflow_rejects_undeclared
  left
  exact ⟨⟨"finish", ["draft"], "complete"⟩, by decide, Or.inl (by decide)⟩

end Docflows
